import Mathlib

/-!
Verification development for the EASYDOCS repository: a React client plus a
Flask server implementing a README-synthesis pipeline. Client-side behaviour
is embedded from the TypeScript sources under src/client; the server-side
pipeline pieces (persistence store, chunker, prompt orchestrator) are not in
the visible sources and are modelled from the specification, as marked in the
doc comments below.
-/

namespace EasyDocs

/-- A README session record as held in the SessionsPage local state
(interface ReadmeData in SessionsPage.tsx). -/
structure ReadmeData where
  id : String
  filename : String
  created_at : String
  userPrompt : String
  model : String
  total_tokens : Nat
deriving DecidableEq, Repr

/-- HTTP response.ok as used by fetch: a status in the 200-299 range. -/
def responseOk (status : Nat) : Bool :=
  200 ≤ status && status < 300

/-- The state update performed by handleDelete in SessionsPage.tsx: on a
success status the deleted id is filtered out of the local session list
(setReadmeData with prev.filter); on a non-success status the handler throws
before reaching the state update, leaving the list unchanged. -/
def handleDelete (status : Nat) (sessions : List ReadmeData) (id : String) :
    List ReadmeData :=
  if responseOk status then
    sessions.filter (fun item => item.id ≠ id)
  else
    sessions

/-- The error message handleDelete raises for a given non-success status
(SessionsPage.tsx lines 85-95). -/
def deleteErrorMessage (status : Nat) : String :=
  if status = 401 then "Unauthorized - Please log in again"
  else if status = 404 then "Session not found - it may have already been deleted"
  else if status = 403 then "You do not have permission to delete this session"
  else "Failed to delete session (" ++ toString status ++ ")"

/-- The outcome of fetchReadmeContent in SessionsPage.tsx for a given HTTP
status and body: a success status returns the body text, 401 and 404 map to
specific thrown errors, anything else to the generic thrown error whose
message interpolates the status. -/
def fetchReadmeContent (status : Nat) (body : String) : Except String String :=
  if responseOk status then .ok body
  else if status = 401 then .error "Unauthorized - Please log in"
  else if status = 404 then .error "README not found"
  else .error ("HTTP error! status: " ++ toString status)

/-- An uploaded file as seen by the client (name and byte size). -/
structure UFile where
  name : String
  size : Nat
deriving DecidableEq, Repr

/-- A value appended to the multipart FormData of the generate request. -/
inductive FormValue where
  | fileVal (f : UFile)
  | strVal (s : String)
deriving DecidableEq, Repr

/-- The observable action generateReadme takes before any network activity:
either an early-return error toast with no request issued, or a POST whose
FormData fields are listed in order. -/
inductive GenAction where
  | noRequest (errorMsg : String)
  | request (form : List (String × FormValue))
deriving DecidableEq, Repr

/-- The request construction of generateReadme in HomePage (src/unnamed/part_001):
with no selected file it returns early with an error toast; otherwise it
appends file, api_key, prompt and model to the FormData, substituting
gemini-1.5-flash when the model string is empty (the JS fallback model ||
default, where the only falsy String is the empty one). -/
def generateReadme (selectedFile : Option UFile) (apiKey userPrompt model : String) :
    GenAction :=
  match selectedFile with
  | none => .noRequest "Please select a project file first"
  | some f =>
      .request [("file", .fileVal f),
                ("api_key", .strVal apiKey),
                ("prompt", .strVal userPrompt),
                ("model", .strVal (if model = "" then "gemini-1.5-flash" else model))]

/-- The file handed to onFileSelect by handleDrop in DropZone.tsx: nothing
when the component is disabled or the dropped list is empty, otherwise the
first file of the list. -/
def handleDrop (disabled : Bool) (files : List UFile) : Option UFile :=
  if disabled then none
  else files.head?

/-- The isMatch guard of DeleteConfirmationModal.tsx: the typed input, with
surrounding whitespace trimmed, must equal itemName exactly. -/
def isMatch (inputValue itemName : String) : Bool :=
  inputValue.trim = itemName

/-- Whether the Delete button of DeleteConfirmationModal is disabled
(disabled={!isMatch}), making onConfirm unreachable. -/
def confirmDisabled (inputValue itemName : String) : Bool :=
  !(isMatch inputValue itemName)

/-- The itemName SettingsPage passes to DeleteConfirmationModal for account
deletion (SettingsPage.tsx line 262). -/
def settingsDeleteItemName : String := "Delete Account"

/-- tokenUsagePercent in SettingsPage.tsx: the raw percentage
(dailyTokensUsed / tokenLimit) * 100 clamped from above by Math.min with 100.
JS numbers are modelled as rationals. -/
def tokenUsagePercent (dailyTokensUsed tokenLimit : ℚ) : ℚ :=
  min ((dailyTokensUsed / tokenLimit) * 100) 100

/-- The Remaining figure rendered by SettingsPage.tsx (line 323):
tokenLimit - dailyTokensUsed, with no clamping. -/
def tokensRemaining (dailyTokensUsed tokenLimit : ℚ) : ℚ :=
  tokenLimit - dailyTokensUsed

/-- An entry of the AIModelDropdown model list (icon omitted: it is a React
node with no behavioural content). -/
structure AIModel where
  id : String
  name : String
  provider : String
  description : String
deriving DecidableEq, Repr

/-- The defaultModels list of AIModelDropdown.tsx. -/
def defaultModels : List AIModel :=
  [⟨"gemini-2.0-flash", "Gemini 2.0 Flash", "Google",
    "v1.5 — Prior top-tier model with large context and strong multimodal abilities"⟩,
   ⟨"gemini-2.5-flash", "Gemini 2.5 Flash", "Google",
    "v1.5 — Prior top-tier model with large context and strong multimodal abilities"⟩,
   ⟨"gemini-1.5-flash", "Gemini 1.5 Flash", "Google",
    "v2.5 — Most advanced Gemini model with superior reasoning and 1M token context"⟩,
   ⟨"gemini-pro", "Gemini Pro", "Google",
    "v2.0 — Lightweight, fast generation, good for real-time tasks"⟩]

/-- The initial selectedModel state of AIModelDropdown.tsx:
models.find(m => m.id === defaultModel) || models[0], where a JS find miss on
an empty list leaves undefined (here none). -/
def initialSelectedModel (models : List AIModel) (defaultModel : String) :
    Option AIModel :=
  (models.find? (fun m => m.id = defaultModel)).orElse (fun _ => models.head?)

/-- The model string HomePage initialises its state with and submits until
the user picks a model (src/unnamed/part_001 line 18). -/
def homePageInitialModel : String := "gemini-1.5-pro"

/-- Modelled from the spec: a persisted ReadmeRecord of the server-side
Persistence Store (server app.py is not among the visible sources) —
identifier, owning user identity and final document text. -/
structure ReadmeRecord where
  rid : Nat
  owner : String
  content : String
deriving DecidableEq, Repr

/-- Modelled from the spec: the errors of the Persistence Store contract. -/
inductive StoreError where
  | NotFound
  | Forbidden
deriving DecidableEq, Repr

/-- Modelled from the spec: the Persistence Store as the list of persisted
records, in creation order. -/
abbrev Store : Type := List ReadmeRecord

/-- Modelled from the spec: get(id, owner) of the server Persistence Store
(app.py not among the visible sources) — fails with NotFound if no record
with that id exists, with Forbidden if the owner of the record does not match
the caller, and otherwise returns the document text. -/
def storeGet (store : Store) (id : Nat) (owner : String) :
    Except StoreError String :=
  match store.find? (fun r => r.rid = id) with
  | none => .error .NotFound
  | some r => if r.owner = owner then .ok r.content else .error .Forbidden

/-- Modelled from the spec: delete(id, owner) of the server Persistence Store
— the same ownership checks as get, and on success removes the record with
that id, returning the updated store. -/
def storeDelete (store : Store) (id : Nat) (owner : String) :
    Except StoreError Store :=
  match store.find? (fun r => r.rid = id) with
  | none => .error .NotFound
  | some r =>
      if r.owner = owner then
        .ok (store.filter (fun x => x.rid ≠ id))
      else .error .Forbidden

/-- Modelled from the spec: get as a state transformer, returning its result
together with the store it leaves behind; get is a pure read and does not
mutate the store. -/
def storeGetS (store : Store) (id : Nat) (owner : String) :
    Except StoreError String × Store :=
  (storeGet store id owner, store)

/-- Modelled from the spec: the HTTP response the server produces for a get
of a persisted README, as consumed by fetchReadmeContent: 200 with the
document text on success, 404 for NotFound, 403 for Forbidden. -/
def serverGetResponse (store : Store) (id : Nat) (owner : String) :
    Nat × String :=
  match storeGet store id owner with
  | .ok text => (200, text)
  | .error .NotFound => (404, "")
  | .error .Forbidden => (403, "")

/-- Modelled from the spec: a selected file entry as consumed by the Chunker
— relative path and textual content. -/
structure FileEntry where
  path : String
  content : String
deriving DecidableEq, Repr

/-- Modelled from the spec: the deterministic token-estimation function of
the Chunker, a fixed monotone ratio of text length to tokens (four
characters per token). -/
def estimateTokens (text : String) : Nat :=
  text.length / 4

/-- Modelled from the spec: the internal truncation applied to an entry whose
own estimate exceeds the per-call ceiling — its content is cut to the longest
length whose estimate still fits the ceiling, rather than the entry being
dropped. -/
def truncateEntry (maxTokens : Nat) (e : FileEntry) : FileEntry :=
  { e with content := ⟨e.content.toList.take (4 * maxTokens)⟩ }

/-- The cumulative token estimate of one chunk. -/
def chunkTokens (chunk : List FileEntry) : Nat :=
  (chunk.map (fun e => estimateTokens e.content)).sum

/-- Modelled from the spec: the greedy packing loop of the Chunker. cur is
the chunk being filled (in reverse order) and curSum its cumulative estimate;
an entry over the ceiling flushes the open chunk and is packed alone after
internal truncation; an entry that fits is added; otherwise the open chunk is
emitted and a fresh one started. -/
def chunkAux (maxTokens : Nat) :
    List FileEntry → List FileEntry → Nat → List (List FileEntry)
  | [], cur, _ => if cur.isEmpty then [] else [cur.reverse]
  | e :: rest, cur, curSum =>
      let t := estimateTokens e.content
      if maxTokens < t then
        (if cur.isEmpty then [] else [cur.reverse])
          ++ [truncateEntry maxTokens e] :: chunkAux maxTokens rest [] 0
      else if curSum + t ≤ maxTokens then
        chunkAux maxTokens rest (e :: cur) (curSum + t)
      else
        cur.reverse :: chunkAux maxTokens rest [e] t

/-- Modelled from the spec: the Chunker — greedily packs the ordered selected
entries into chunks whose cumulative estimate stays at or below the per-call
ceiling. -/
def chunkFiles (maxTokens : Nat) (entries : List FileEntry) :
    List (List FileEntry) :=
  chunkAux maxTokens entries [] 0

/-- Modelled from the spec: the behaviour of the generative-model boundary on
one chunk — the text the model returns when a call succeeds, and whether the
first call and the backoff retry succeed. -/
structure ChunkCall where
  text : String
  firstCallOk : Bool
  retryOk : Bool
deriving DecidableEq, Repr

/-- Modelled from the spec: the terminal states of the orchestrator state
machine. -/
inductive OrchState where
  | Complete
  | PartialFailure
deriving DecidableEq, Repr

/-- Modelled from the spec: the result of one orchestration — the merged
document, the terminal state, and the number of model-call attempts spent on
each chunk actually processed, in order. -/
structure OrchResult where
  document : String
  state : OrchState
  attempts : List Nat
deriving DecidableEq, Repr

/-- Modelled from the spec: merging a successive model response into the
cumulative document by concatenation (section reconciliation of duplicate
headings does not affect the properties proved here beyond concatenation). -/
def mergeDoc (doc text : String) : String :=
  if doc = "" then text else doc ++ "\n\n" ++ text

/-- Modelled from the spec: the orchestrator fold over the ordered chunk
sequence carrying the cumulative document. A chunk whose first call succeeds
costs one attempt; a chunk whose first call fails is retried exactly once
with backoff, costing two attempts; when the retry also fails the remaining
chunks are aborted and the document assembled so far is returned annotated
PartialFailure. -/
def orchestrateFrom : List ChunkCall → String → OrchResult
  | [], doc => ⟨doc, .Complete, []⟩
  | c :: rest, doc =>
      if c.firstCallOk then
        let r := orchestrateFrom rest (mergeDoc doc c.text)
        ⟨r.document, r.state, 1 :: r.attempts⟩
      else if c.retryOk then
        let r := orchestrateFrom rest (mergeDoc doc c.text)
        ⟨r.document, r.state, 2 :: r.attempts⟩
      else
        ⟨doc, .PartialFailure, [2]⟩

/-- Modelled from the spec: the Prompt Orchestrator run on an ordered chunk
sequence, starting from the empty document. -/
def orchestrate (chunks : List ChunkCall) : OrchResult :=
  orchestrateFrom chunks ""

/-- Whether a chunk fails both its first call and its backoff retry. -/
def fatalChunk (c : ChunkCall) : Bool :=
  !c.firstCallOk && !c.retryOk

/-- The index of the first chunk that fails both attempts, when one exists. -/
def firstFatal : List ChunkCall → Option Nat
  | [] => none
  | c :: rest => if fatalChunk c then some 0 else (firstFatal rest).map (· + 1)

/-- The number of model-call attempts the orchestrator spends on a chunk it
completes: one when the first call succeeds, two when the backoff retry is
used. -/
def attemptsOf (c : ChunkCall) : Nat :=
  if c.firstCallOk then 1 else 2

/-- Merging a list of chunk responses into a document, starting from doc. -/
def mergeAll (doc : String) (texts : List String) : String :=
  texts.foldl mergeDoc doc

/-- Filtering away one id that occurs in a session list with pairwise
distinct ids shortens the list by exactly one. -/
lemma filter_ne_id_length (id : String) :
    ∀ (l : List ReadmeData), (l.map ReadmeData.id).Nodup →
      ∀ s ∈ l, s.id = id →
      (l.filter (fun x => x.id ≠ id)).length + 1 = l.length := by
  intro l
  induction l with
  | nil =>
      intro _ s hs
      exact absurd hs (List.not_mem_nil s)
  | cons a t ih =>
      intro hnd s hs hsid
      rw [List.map_cons, List.nodup_cons] at hnd
      obtain ⟨ha, ht⟩ := hnd
      rcases List.mem_cons.mp hs with rfl | hst
      · have hfa : (fun x : ReadmeData => decide (x.id ≠ id)) s = false := by
          simp [hsid]
        have ht' : ∀ x ∈ t, (fun x : ReadmeData => decide (x.id ≠ id)) x = true := by
          intro x hx
          simp only [decide_eq_true_eq]
          intro hxid
          exact ha (hsid ▸ hxid ▸ List.mem_map_of_mem ReadmeData.id hx)
        simp [List.filter_cons, hsid, List.filter_eq_self.mpr ht']
        intro x hx hxid
        exact ha (by rw [hsid, ← hxid]; exact List.mem_map_of_mem ReadmeData.id hx)
      · have haid : a.id ≠ id := by
          intro h
          apply ha
          rw [h, ← hsid]
          exact List.mem_map_of_mem ReadmeData.id hst
        have hrec := ih ht s hst hsid
        simp only [List.filter_cons, List.length_cons]
        rw [if_pos (by simpa using haid)]
        simp only [List.length_cons]
        omega

/-- C1: when the DELETE request returns a success status, handleDelete
removes from the local session list exactly the entries whose id equals the
deleted id, keeps every other entry in its original relative order (so with
pairwise distinct ids exactly one record is removed); on a non-success
status the list is left entirely unchanged. -/
theorem handleDelete_removes_exactly_deleted (status : Nat)
    (sessions : List ReadmeData) (id : String) :
    (responseOk status = true →
      handleDelete status sessions id = sessions.filter (fun s => s.id ≠ id) ∧
      (∀ s ∈ handleDelete status sessions id, s.id ≠ id) ∧
      (handleDelete status sessions id).Sublist sessions ∧
      (∀ s ∈ sessions, s.id ≠ id → s ∈ handleDelete status sessions id) ∧
      ((sessions.map ReadmeData.id).Nodup →
        ∀ s ∈ sessions, s.id = id →
          (handleDelete status sessions id).length + 1 = sessions.length)) ∧
    (responseOk status = false → handleDelete status sessions id = sessions) := by
  constructor
  · intro hok
    have hD : handleDelete status sessions id
        = sessions.filter (fun s => s.id ≠ id) := by
      simp [handleDelete, hok]
    refine ⟨hD, ?_, ?_, ?_, ?_⟩
    · intro s hs
      rw [hD] at hs
      simpa using (List.mem_filter.mp hs).2
    · rw [hD]
      exact List.filter_sublist sessions
    · intro s hs hne
      rw [hD]
      exact List.mem_filter.mpr ⟨hs, by simpa using hne⟩
    · intro hnd s hs hsid
      rw [hD]
      exact filter_ne_id_length id sessions hnd s hs hsid
  · intro hbad
    simp [handleDelete, hbad]

/-- Witness for C1 at a concrete two-session list: a 200 response removes
exactly the session with the deleted id, a 500 response leaves the list
unchanged. -/
theorem handleDelete_removes_exactly_deleted_witness :
    handleDelete 200 [⟨"a", "f1", "t1", "", "m", 1⟩, ⟨"b", "f2", "t2", "", "m", 2⟩] "a"
      = [⟨"b", "f2", "t2", "", "m", 2⟩] ∧
    handleDelete 500 [⟨"a", "f1", "t1", "", "m", 1⟩] "a"
      = [⟨"a", "f1", "t1", "", "m", 1⟩] := by
  refine ⟨?_, (handleDelete_removes_exactly_deleted 500 _ "a").2 (by decide)⟩
  rw [((handleDelete_removes_exactly_deleted 200
    [⟨"a", "f1", "t1", "", "m", 1⟩, ⟨"b", "f2", "t2", "", "m", 2⟩] "a").1 (by decide)).1]
  decide

/-- C3: generateReadme forwards the requirement string, empty or not, as the
prompt form field of the generation request, and returns early with an error
message, issuing no request, exactly when no file is selected. -/
theorem generateReadme_empty_prompt_is_valid (f : UFile) (apiKey p m : String) :
    (∃ form, generateReadme (some f) apiKey p m = .request form ∧
      ("prompt", FormValue.strVal p) ∈ form) ∧
    generateReadme none apiKey p m
      = .noRequest "Please select a project file first" := by
  exact ⟨⟨_, rfl, by simp⟩, rfl⟩

/-- C4: a drop event passes only the first file of the dropped list to
onFileSelect and passes nothing when the list is empty (or the zone is
disabled), and the generation request carries exactly one file field, one
prompt field and one model field, with gemini-1.5-flash substituted for an
empty model string. -/
theorem single_file_per_generation_request (f : UFile) (fs : List UFile)
    (apiKey p m : String) :
    handleDrop false (f :: fs) = some f ∧
    handleDrop false [] = none ∧
    handleDrop true (f :: fs) = none ∧
    (∃ form, generateReadme (some f) apiKey p m = .request form ∧
      form.countP (fun kv => kv.1 = "file") = 1 ∧
      form.countP (fun kv => kv.1 = "prompt") = 1 ∧
      form.countP (fun kv => kv.1 = "model") = 1 ∧
      ("model", FormValue.strVal (if m = "" then "gemini-1.5-flash" else m)) ∈ form) := by
  refine ⟨rfl, rfl, rfl, _, rfl, ?_, ?_, ?_, by simp⟩
  all_goals simp [List.countP_cons, List.countP_nil]

/-- C8: the Delete button of DeleteConfirmationModal is enabled exactly when
the typed input, trimmed of surrounding whitespace, equals itemName, so
onConfirm is unreachable otherwise; with the itemName SettingsPage passes,
account deletion requires typing exactly Delete Account. -/
theorem confirm_button_requires_exact_item_name (input itemName : String) :
    (confirmDisabled input itemName = false ↔ input.trim = itemName) ∧
    (confirmDisabled input settingsDeleteItemName = false ↔
      input.trim = "Delete Account") := by
  constructor <;> simp [confirmDisabled, isMatch, settingsDeleteItemName]

/-- C9: with a positive token limit the rendered usage percentage is the
clamped min((used / limit) * 100, 100), never exceeding 100 — when usage
exceeds the limit it is pinned to exactly 100 — while the Remaining figure
limit - used is unclamped and turns negative in that case. -/
theorem token_usage_percent_clamped (used limit : ℚ) (hl : 0 < limit) :
    tokenUsagePercent used limit ≤ 100 ∧
    (limit < used → tokenUsagePercent used limit = 100) ∧
    (limit < used → tokensRemaining used limit < 0) := by
  refine ⟨min_le_right _ _, ?_, ?_⟩
  · intro hover
    have h1 : (1 : ℚ) < used / limit := (one_lt_div hl).mpr hover
    have h100 : (100 : ℚ) ≤ (used / limit) * 100 := by nlinarith
    simpa [tokenUsagePercent] using min_eq_right h100
  · intro hover
    simpa [tokensRemaining] using sub_neg.mpr hover

/-- Witness for C9 at used = 150, limit = 100: the percentage is clamped to
100 and the Remaining figure is negative. -/
theorem token_usage_percent_clamped_witness :
    tokenUsagePercent 150 100 ≤ 100 ∧
    tokenUsagePercent 150 100 = 100 ∧
    tokensRemaining 150 100 < 0 := by
  have h := token_usage_percent_clamped 150 100 (by norm_num)
  exact ⟨h.1, h.2.1 (by norm_num), h.2.2 (by norm_num)⟩

/-- C10: AIModelDropdown initially selects the list entry whose id equals
defaultModel and falls back to the first entry when no id matches; HomePage
passes gemini-1.5-pro, which is absent from the default list, so the
dropdown initially shows Gemini 2.0 Flash while generateReadme still submits
gemini-1.5-pro as the model field until the user picks a model. -/
theorem dropdown_initial_selection_mismatch (models : List AIModel)
    (d : String) (f : UFile) (apiKey p : String) :
    (∀ m, models.find? (fun x => x.id = d) = some m →
      initialSelectedModel models d = some m) ∧
    (models.find? (fun x => x.id = d) = none →
      initialSelectedModel models d = models.head?) ∧
    defaultModels.all (fun m => m.id ≠ homePageInitialModel) = true ∧
    (initialSelectedModel defaultModels homePageInitialModel).map AIModel.name
      = some "Gemini 2.0 Flash" ∧
    (∃ form, generateReadme (some f) apiKey p homePageInitialModel = .request form ∧
      ("model", FormValue.strVal homePageInitialModel) ∈ form) := by
  refine ⟨?_, ?_, by decide, by decide, _, rfl, by simp [homePageInitialModel]⟩
  · intro m hm
    simp [initialSelectedModel, hm, Option.orElse]
  · intro hm
    simp [initialSelectedModel, hm, Option.orElse]

/-- Witness for C10: on the concrete default model list, a matching
defaultModel id is selected, and a missing one falls back to the head. -/
theorem dropdown_initial_selection_mismatch_witness :
    initialSelectedModel defaultModels "gemini-pro"
      = some ⟨"gemini-pro", "Gemini Pro", "Google",
          "v2.0 — Lightweight, fast generation, good for real-time tasks"⟩ ∧
    initialSelectedModel defaultModels "gemini-1.5-pro" = defaultModels.head? := by
  constructor
  · exact (dropdown_initial_selection_mismatch defaultModels "gemini-pro"
      ⟨"z", 0⟩ "" "").1 _ (by decide)
  · exact (dropdown_initial_selection_mismatch defaultModels "gemini-1.5-pro"
      ⟨"z", 0⟩ "" "").2.1 (by decide)

/-- C2 counterexample: in the get flow, fetchReadmeContent sends an HTTP 403
into the same generic status-interpolated error template it uses for any
other unhandled failure status such as 500, not into a permission-specific
error — only the delete flow has a dedicated 403 message. -/
theorem fetch_403_is_generic_error :
    fetchReadmeContent 403 "body"
      = .error ("HTTP error! status: " ++ toString 403) ∧
    fetchReadmeContent 500 "body"
      = .error ("HTTP error! status: " ++ toString 500) ∧
    fetchReadmeContent 403 "body"
      ≠ .error "You do not have permission to delete this session" := by
  refine ⟨rfl, rfl, fun h => ?_⟩
  exact absurd (Except.error.inj h) (by decide)

/-- C2 (amended): get and delete are owner-scoped — NotFound when no record
with the id exists, Forbidden when the owner of the record differs from the
caller, and a successful delete makes a subsequent get of the same id fail
with NotFound; the client maps HTTP 404 to a not-found error in both the get
and delete flows, maps HTTP 403 to a permission error in the delete flow
while the get flow throws a generic HTTP error for it, and on every
non-success status it throws rather than mutating state. -/
theorem ownership_scoped_get_delete (store : Store) (id : Nat) (owner : String)
    (body : String) (status : Nat) (sessions : List ReadmeData) (sid : String) :
    (store.find? (fun r => r.rid = id) = none →
      storeGet store id owner = .error .NotFound ∧
      storeDelete store id owner = .error .NotFound) ∧
    (∀ r, store.find? (fun x => x.rid = id) = some r → r.owner ≠ owner →
      storeGet store id owner = .error .Forbidden ∧
      storeDelete store id owner = .error .Forbidden) ∧
    (∀ store2, storeDelete store id owner = .ok store2 →
      storeGet store2 id owner = .error .NotFound) ∧
    fetchReadmeContent 404 body = .error "README not found" ∧
    deleteErrorMessage 404 = "Session not found - it may have already been deleted" ∧
    deleteErrorMessage 403 = "You do not have permission to delete this session" ∧
    (responseOk status = false →
      (∃ msg, fetchReadmeContent status body = .error msg) ∧
      handleDelete status sessions sid = sessions) := by
  refine ⟨?_, ?_, ?_, rfl, rfl, rfl, ?_⟩
  · intro h
    constructor <;> simp [storeGet, storeDelete, h]
  · intro r hr hro
    constructor <;> simp [storeGet, storeDelete, hr, hro]
  · intro store2 hdel
    unfold storeDelete at hdel
    split at hdel
    · cases hdel
    · split at hdel
      · injection hdel with h2
        subst h2
        have hnone : (store.filter (fun x => x.rid ≠ id)).find?
            (fun r => r.rid = id) = none := by
          rw [List.find?_eq_none]
          intro x hx
          simpa using (List.mem_filter.mp hx).2
        unfold storeGet
        rw [hnone]
      · cases hdel
  · intro hbad
    refine ⟨?_, by simp [handleDelete, hbad]⟩
    simp only [fetchReadmeContent, hbad, Bool.false_eq_true, if_false]
    split
    · exact ⟨_, rfl⟩
    · split
      · exact ⟨_, rfl⟩
      · exact ⟨_, rfl⟩

/-- Witness for C2 at a concrete one-record store: a missing id is NotFound,
a mismatched owner is Forbidden, get after a successful delete is NotFound,
and a 404 delete response leaves the local session list unchanged. -/
theorem ownership_scoped_get_delete_witness :
    storeGet [⟨1, "alice", "doc"⟩] 2 "alice" = .error .NotFound ∧
    storeGet [⟨1, "alice", "doc"⟩] 1 "bob" = .error .Forbidden ∧
    storeGet [] 1 "alice" = .error .NotFound ∧
    handleDelete 404 [⟨"a", "f", "t", "", "m", 1⟩] "a"
      = [⟨"a", "f", "t", "", "m", 1⟩] := by
  refine ⟨((ownership_scoped_get_delete [⟨1, "alice", "doc"⟩] 2 "alice" "" 404 [] "a").1
      (by rfl)).1,
    ((ownership_scoped_get_delete [⟨1, "alice", "doc"⟩] 1 "bob" "" 404 [] "a").2.1
      ⟨1, "alice", "doc"⟩ (by rfl) (by decide)).1,
    ?_,
    ((ownership_scoped_get_delete [] 1 "a" "" 404 [⟨"a", "f", "t", "", "m", 1⟩]
      "a").2.2.2.2.2.2 (by decide)).2⟩
  exact (ownership_scoped_get_delete [⟨1, "alice", "doc"⟩] 1 "alice" "" 404 [] "a").2.2.1
    [] (by rfl)

/-- C7: get is a pure read — run twice on the same store it leaves the store
unchanged and returns the same result, and the client fetchReadmeContent of
the resulting HTTP response is the identical string both times. -/
theorem get_twice_identical (store : Store) (id : Nat) (owner : String) :
    (storeGetS store id owner).1 = (storeGetS (storeGetS store id owner).2 id owner).1 ∧
    (storeGetS store id owner).2 = store ∧
    (storeGetS (storeGetS store id owner).2 id owner).2 = store ∧
    fetchReadmeContent (serverGetResponse store id owner).1
        (serverGetResponse store id owner).2
      = fetchReadmeContent
          (serverGetResponse (storeGetS store id owner).2 id owner).1
          (serverGetResponse (storeGetS store id owner).2 id owner).2 := by
  exact ⟨rfl, rfl, rfl, rfl⟩

/-- The token estimate of an internally truncated entry is at most the
ceiling it was truncated for. -/
lemma estimateTokens_truncateEntry (m : Nat) (e : FileEntry) :
    estimateTokens (truncateEntry m e).content ≤ m := by
  unfold truncateEntry estimateTokens
  simp only [String.length]
  calc (e.content.toList.take (4 * m)).length / 4
      ≤ (4 * m) / 4 := Nat.div_le_div_right (List.length_take_le _ _)
    _ = m := Nat.mul_div_cancel_left m (by norm_num)

/-- The token sum of a chunk, cons form. -/
lemma chunkTokens_cons (e : FileEntry) (l : List FileEntry) :
    chunkTokens (e :: l) = estimateTokens e.content + chunkTokens l := by
  simp [chunkTokens]

/-- Reversing a chunk does not change its token sum. -/
lemma chunkTokens_reverse (l : List FileEntry) :
    chunkTokens l.reverse = chunkTokens l := by
  simp only [chunkTokens, List.map_reverse]
  exact List.sum_reverse _

/-- Invariant of the greedy packing loop: if the open chunk is within the
ceiling, every emitted chunk is within the ceiling. -/
lemma chunkAux_bounded (maxTokens : Nat) :
    ∀ (entries cur : List FileEntry),
      chunkTokens cur ≤ maxTokens →
      ∀ chunk ∈ chunkAux maxTokens entries cur (chunkTokens cur),
        chunkTokens chunk ≤ maxTokens := by
  intro entries
  induction entries with
  | nil =>
      intro cur hcur chunk hmem
      unfold chunkAux at hmem
      by_cases hc : cur.isEmpty
      · simp [hc] at hmem
      · simp [hc] at hmem
        subst hmem
        simpa [chunkTokens_reverse] using hcur
  | cons e rest ih =>
      intro cur hcur chunk hmem
      unfold chunkAux at hmem
      simp only [] at hmem
      by_cases h1 : maxTokens < estimateTokens e.content
      · rw [if_pos h1] at hmem
        rcases List.mem_append.mp hmem with hflush | htail
        · by_cases hc : cur.isEmpty
          · simp [hc] at hflush
          · simp [hc] at hflush
            subst hflush
            simpa [chunkTokens_reverse] using hcur
        · rcases List.mem_cons.mp htail with rfl | hrec
          · simpa [chunkTokens_cons, chunkTokens] using
              estimateTokens_truncateEntry maxTokens e
          · have h0 : chunkTokens ([] : List FileEntry) ≤ maxTokens := by
              simp [chunkTokens]
            exact ih [] h0 chunk (by simpa [chunkTokens] using hrec)
      · rw [if_neg h1] at hmem
        by_cases h2 : chunkTokens cur + estimateTokens e.content ≤ maxTokens
        · rw [if_pos h2] at hmem
          have hsum : chunkTokens cur + estimateTokens e.content
              = chunkTokens (e :: cur) := by
            rw [chunkTokens_cons, Nat.add_comm]
          rw [hsum] at hmem h2
          exact ih (e :: cur) h2 chunk hmem
        · rw [if_neg h2] at hmem
          rcases List.mem_cons.mp hmem with rfl | hrec
          · simpa [chunkTokens_reverse] using hcur
          · have hsingle : chunkTokens [e] ≤ maxTokens := by
              simpa [chunkTokens_cons, chunkTokens] using Nat.le_of_not_lt h1
            have heq : estimateTokens e.content = chunkTokens [e] := by
              simp [chunkTokens]
            rw [heq] at hrec
            exact ih [e] hsingle chunk hrec

/-- C5: every chunk the Chunker produces has a cumulative token estimate at
or below the per-call ceiling — an entry whose own estimate exceeds the
ceiling is packed alone after internal truncation, which caps its estimate
at the ceiling, so even the oversized-singleton chunk exceeds it by nothing
more than the unavoidable minimum (here zero). -/
theorem chunk_token_sum_bounded (maxTokens : Nat) (entries : List FileEntry) :
    ∀ chunk ∈ chunkFiles maxTokens entries, chunkTokens chunk ≤ maxTokens := by
  intro chunk hmem
  exact chunkAux_bounded maxTokens entries [] (by simp [chunkTokens]) chunk hmem

/-- Witness for C5 on a concrete entry list with ceiling 3: the first chunk
packs the two small entries, the oversized third entry is truncated and
packed alone, and the packed chunk token sum is within the ceiling. -/
theorem chunk_token_sum_bounded_witness :
    [⟨"a.py", "aaaa"⟩, ⟨"b.py", "bbbbbbbb"⟩]
      ∈ chunkFiles 3 [⟨"a.py", "aaaa"⟩, ⟨"b.py", "bbbbbbbb"⟩,
          ⟨"c.py", "cccccccccccccccccccc"⟩] ∧
    chunkTokens [⟨"a.py", "aaaa"⟩, ⟨"b.py", "bbbbbbbb"⟩] ≤ 3 := by
  refine ⟨by decide, ?_⟩
  exact chunk_token_sum_bounded 3
    [⟨"a.py", "aaaa"⟩, ⟨"b.py", "bbbbbbbb"⟩, ⟨"c.py", "cccccccccccccccccccc"⟩]
    _ (by decide)

/-- Appending to a non-empty string yields a non-empty string. -/
lemma append_ne_empty_left (a b : String) (h : a ≠ "") : a ++ b ≠ "" := by
  intro hc
  apply h
  have hd := congrArg String.data hc
  simp only [String.data_append] at hd
  have hnil : a.data = [] := (List.append_eq_nil.mp (by simpa using hd)).1
  cases a with
  | mk d => simp_all

/-- Merging a non-empty response yields a non-empty document. -/
lemma mergeDoc_ne_empty_of_text (doc t : String) (h : t ≠ "") :
    mergeDoc doc t ≠ "" := by
  unfold mergeDoc
  by_cases hd : doc = ""
  · simpa [hd] using h
  · rw [if_neg hd]
    exact append_ne_empty_left _ _ (append_ne_empty_left _ _ hd)

/-- Merging anything into a non-empty document keeps it non-empty. -/
lemma mergeDoc_ne_empty_of_doc (doc t : String) (h : doc ≠ "") :
    mergeDoc doc t ≠ "" := by
  unfold mergeDoc
  rw [if_neg h]
  exact append_ne_empty_left _ _ (append_ne_empty_left _ _ h)

/-- Merging further responses into a non-empty document never empties it. -/
lemma mergeAll_ne_empty_of_doc :
    ∀ (texts : List String) (doc : String), doc ≠ "" →
      mergeAll doc texts ≠ "" := by
  intro texts
  induction texts with
  | nil =>
      intro doc h
      simpa [mergeAll] using h
  | cons t ts ih =>
      intro doc h
      have hstep : mergeAll doc (t :: ts) = mergeAll (mergeDoc doc t) ts := rfl
      rw [hstep]
      exact ih (mergeDoc doc t) (mergeDoc_ne_empty_of_doc doc t h)

/-- As soon as one non-empty response is among those merged, the resulting
document is non-empty. -/
lemma mergeAll_ne_empty_of_mem :
    ∀ (texts : List String) (doc : String), (∃ t ∈ texts, t ≠ "") →
      mergeAll doc texts ≠ "" := by
  intro texts
  induction texts with
  | nil =>
      intro doc h
      rcases h with ⟨t, ht, _⟩
      exact absurd ht (List.not_mem_nil t)
  | cons t ts ih =>
      intro doc h
      have hstep : mergeAll doc (t :: ts) = mergeAll (mergeDoc doc t) ts := rfl
      rw [hstep]
      rcases h with ⟨u, hu, hune⟩
      rcases List.mem_cons.mp hu with rfl | hus
      · exact mergeAll_ne_empty_of_doc ts (mergeDoc doc u)
          (mergeDoc_ne_empty_of_text doc u hune)
      · exact ih (mergeDoc doc t) ⟨u, hus, hune⟩

/-- When no chunk fails twice, the orchestrator completes all chunks: the
document merges every response and each chunk costs one attempt, or two when
its first call failed and the single retry succeeded. -/
lemma orchestrateFrom_complete :
    ∀ (chunks : List ChunkCall) (doc : String), firstFatal chunks = none →
      orchestrateFrom chunks doc
        = ⟨mergeAll doc (chunks.map ChunkCall.text), .Complete,
            chunks.map attemptsOf⟩ := by
  intro chunks
  induction chunks with
  | nil => intro doc _; rfl
  | cons c rest ih =>
      intro doc h
      unfold firstFatal at h
      by_cases hc : fatalChunk c
      · rw [if_pos hc] at h; cases h
      · rw [if_neg hc] at h
        have hrest : firstFatal rest = none := by
          cases hr : firstFatal rest with
          | none => rfl
          | some j => rw [hr] at h; simp at h
        have hrec := ih (mergeDoc doc c.text) hrest
        unfold orchestrateFrom
        unfold fatalChunk at hc
        by_cases h1 : c.firstCallOk
        · rw [if_pos h1, hrec]
          simp [mergeAll, attemptsOf, h1]
        · have h1f : c.firstCallOk = false := by simpa using h1
          have h2 : c.retryOk = true := by
            cases h2 : c.retryOk with
            | true => rfl
            | false => exact absurd (by simp [h1f, h2]) hc
          rw [if_neg h1, if_pos h2, hrec]
          simp [mergeAll, attemptsOf, h1f]

/-- When chunk i is the first to fail twice, the orchestrator processes
exactly the chunks before it plus the two failed attempts on chunk i, and
returns the document merged from the preceding responses annotated
PartialFailure. -/
lemma orchestrateFrom_fatal :
    ∀ (chunks : List ChunkCall) (i : Nat) (doc : String),
      firstFatal chunks = some i →
      orchestrateFrom chunks doc
        = ⟨mergeAll doc ((chunks.take i).map ChunkCall.text), .PartialFailure,
            ((chunks.take i).map attemptsOf) ++ [2]⟩ := by
  intro chunks
  induction chunks with
  | nil => intro i doc h; cases h
  | cons c rest ih =>
      intro i doc h
      unfold firstFatal at h
      by_cases hc : fatalChunk c
      · rw [if_pos hc] at h
        cases h
        unfold fatalChunk at hc
        have h1 : c.firstCallOk = false := by
          cases h1 : c.firstCallOk with
          | false => rfl
          | true => rw [h1] at hc; simp at hc
        have h2 : c.retryOk = false := by
          cases h2 : c.retryOk with
          | false => rfl
          | true => rw [h2] at hc; simp at hc
        unfold orchestrateFrom
        rw [if_neg (by simp [h1]), if_neg (by simp [h2])]
        simp [mergeAll]
      · rw [if_neg hc] at h
        cases hr : firstFatal rest with
        | none => rw [hr] at h; cases h
        | some j =>
            rw [hr] at h
            simp at h
            have hi : i = j + 1 := by omega
            subst hi
            have hrec := ih j (mergeDoc doc c.text) hr
            unfold orchestrateFrom
            unfold fatalChunk at hc
            by_cases h1 : c.firstCallOk
            · rw [if_pos h1, hrec]
              simp [mergeAll, attemptsOf, h1]
            · have h1f : c.firstCallOk = false := by simpa using h1
              have h2 : c.retryOk = true := by
                cases h2 : c.retryOk with
                | true => rfl
                | false => exact absurd (by simp [h1f, h2]) hc
              rw [if_neg h1, if_pos h2, hrec]
              simp [mergeAll, attemptsOf, h1f]

/-- C6 counterexample: the model boundary can return an empty output text on
a successful call, and a run whose only success returned the empty string
yields a PartialFailure whose document is empty even though one chunk
succeeded — the unconditional non-emptiness clause of the claim fails at
this degenerate input. -/
theorem empty_success_response_empty_document :
    (orchestrate [⟨"", true, true⟩, ⟨"x", false, false⟩]).state
      = OrchState.PartialFailure ∧
    firstFatal [⟨"", true, true⟩, ⟨"x", false, false⟩] = some 1 ∧
    (orchestrate [⟨"", true, true⟩, ⟨"x", false, false⟩]).document = "" := by
  exact ⟨rfl, rfl, rfl⟩

/-- C6 (amended): the orchestrator spends at most two attempts on any chunk
(the one retry with backoff); with no doubly failing chunk it completes with
the merged document of all responses; the first chunk to fail both attempts
aborts the remaining chunks and yields the document merged from the
preceding successes annotated PartialFailure, which is non-empty whenever at
least one chunk succeeded with a non-empty response. -/
theorem orchestrator_retry_once_then_abort (chunks : List ChunkCall) :
    (∀ a ∈ (orchestrate chunks).attempts, a = 1 ∨ a = 2) ∧
    (firstFatal chunks = none →
      (orchestrate chunks).state = .Complete ∧
      (orchestrate chunks).document = mergeAll "" (chunks.map ChunkCall.text) ∧
      (orchestrate chunks).attempts = chunks.map attemptsOf) ∧
    (∀ i, firstFatal chunks = some i →
      (orchestrate chunks).state = .PartialFailure ∧
      (orchestrate chunks).attempts = ((chunks.take i).map attemptsOf) ++ [2] ∧
      (orchestrate chunks).document
        = mergeAll "" ((chunks.take i).map ChunkCall.text) ∧
      ((∃ c ∈ chunks.take i, c.text ≠ "") →
        (orchestrate chunks).document ≠ "")) := by
  refine ⟨?_, ?_, ?_⟩
  · intro a ha
    cases hf : firstFatal chunks with
    | none =>
        have hat : (orchestrate chunks).attempts = chunks.map attemptsOf := by
          rw [show orchestrate chunks = orchestrateFrom chunks "" from rfl,
            orchestrateFrom_complete chunks "" hf]
        rw [hat] at ha
        rcases List.mem_map.mp ha with ⟨c, _, hceq⟩
        unfold attemptsOf at hceq
        by_cases h1 : c.firstCallOk
        · left; rw [← hceq, if_pos h1]
        · right; rw [← hceq, if_neg h1]
    | some i =>
        have hat : (orchestrate chunks).attempts
            = ((chunks.take i).map attemptsOf) ++ [2] := by
          rw [show orchestrate chunks = orchestrateFrom chunks "" from rfl,
            orchestrateFrom_fatal chunks i "" hf]
        rw [hat] at ha
        rcases List.mem_append.mp ha with hmap | hlast
        · rcases List.mem_map.mp hmap with ⟨c, _, hceq⟩
          unfold attemptsOf at hceq
          by_cases h1 : c.firstCallOk
          · left; rw [← hceq, if_pos h1]
          · right; rw [← hceq, if_neg h1]
        · right; simpa using hlast
  · intro hf
    rw [show orchestrate chunks = orchestrateFrom chunks "" from rfl,
      orchestrateFrom_complete chunks "" hf]
    exact ⟨rfl, rfl, rfl⟩
  · intro i hf
    rw [show orchestrate chunks = orchestrateFrom chunks "" from rfl,
      orchestrateFrom_fatal chunks i "" hf]
    refine ⟨rfl, rfl, rfl, ?_⟩
    intro h
    rcases h with ⟨c, hc, hcne⟩
    exact mergeAll_ne_empty_of_mem _ ""
      ⟨c.text, List.mem_map_of_mem ChunkCall.text hc, hcne⟩

/-- Witness for C6 on four concrete chunks whose third fails both attempts:
the run is PartialFailure, the attempt counts are one for the clean first
chunk, two for the retried second and two for the fatal third (the fourth is
never attempted), and the document assembled from the first two responses is
non-empty. -/
theorem orchestrator_retry_once_then_abort_witness :
    (orchestrate [⟨"A", true, true⟩, ⟨"B", false, true⟩, ⟨"C", false, false⟩,
        ⟨"D", true, true⟩]).state = OrchState.PartialFailure ∧
    (orchestrate [⟨"A", true, true⟩, ⟨"B", false, true⟩, ⟨"C", false, false⟩,
        ⟨"D", true, true⟩]).attempts = [1, 2, 2] ∧
    (orchestrate [⟨"A", true, true⟩, ⟨"B", false, true⟩, ⟨"C", false, false⟩,
        ⟨"D", true, true⟩]).document ≠ "" := by
  have h := (orchestrator_retry_once_then_abort
    [⟨"A", true, true⟩, ⟨"B", false, true⟩, ⟨"C", false, false⟩,
      ⟨"D", true, true⟩]).2.2 2 (by rfl)
  refine ⟨h.1, ?_, h.2.2.2 ⟨⟨"A", true, true⟩, by decide, by decide⟩⟩
  rw [h.2.1]
  rfl

end EasyDocs
